import Mathlib

/-!
# Registration helpers of `static/js/auth.js`

A shallow embedding of the two pure functions of `static/js/auth.js`,
`calculatePasswordStrength` and `validateRegistrationForm`, together with the
fragment of the ECMAScript semantics they rely on: strings as sequences of
UTF-16 code units, regular-expression character classes, truthiness
(`ToBoolean`), numeric coercion (`ToNumber`) and the relational operator `<`.
-/

set_option autoImplicit false

namespace Auth

/-! ## ECMAScript strings -/

/-- A UTF-16 code unit: a 16-bit unsigned integer. -/
abbrev CodeUnit := Fin 65536

/-- An ECMAScript String value: a finite sequence of UTF-16 code units.
`s.length` of the source is the length of this list and `a + b` on strings is
list append. -/
abbrev JSString := List CodeUnit

/-- The UTF-16 encoding of one Unicode scalar value (a surrogate pair above
U+FFFF). -/
def utf16 (c : Char) : List CodeUnit :=
  if c.toNat < 65536 then [Fin.ofNat c.toNat]
  else
    [Fin.ofNat (55296 + (c.toNat - 65536) / 1024),
     Fin.ofNat (56320 + (c.toNat - 65536) % 1024)]

/-- The String value denoted by a source string literal. -/
def js (s : String) : JSString :=
  s.data.flatMap utf16

/-! ## Regular-expression character classes

`auth.js` only uses patterns that consist of one character class, without
flags: `/[a-z]/`, `/[A-Z]/`, `/[0-9]/` and `/[^A-Za-z0-9]/`. -/

/-- A pattern made of a single character class: a list of inclusive code-unit
ranges, possibly negated (`[^...]`). -/
structure CharClass where
  negated : Bool
  ranges : List (Nat × Nat)

/-- Whether one code unit is matched by the class. -/
def CharClass.matches (cls : CharClass) (u : CodeUnit) : Bool :=
  let inRange := cls.ranges.any (fun r => decide (r.1 ≤ u.val) && decide (u.val ≤ r.2))
  if cls.negated then !inRange else inRange

/-- `RegExp.prototype.test` for a one-class pattern without flags: the
pattern matches somewhere in the string iff some code unit is in the class. -/
def CharClass.test (cls : CharClass) (s : JSString) : Bool :=
  s.any cls.matches

/-- The pattern `/[a-z]/`. -/
def reLower : CharClass := ⟨false, [(97, 122)]⟩

/-- The pattern `/[A-Z]/`. -/
def reUpper : CharClass := ⟨false, [(65, 90)]⟩

/-- The pattern `/[0-9]/`. -/
def reDigit : CharClass := ⟨false, [(48, 57)]⟩

/-- The pattern `/[^A-Za-z0-9]/`. -/
def reSpecial : CharClass := ⟨true, [(65, 90), (97, 122), (48, 57)]⟩

/-! ## `calculatePasswordStrength` (auth.js, lines 32-46) -/

/-- The source function: `score` starts at 0, is incremented by each of the
six `if` statements in turn, and `Math.min(score, 5)` is returned. -/
def calculatePasswordStrength (password : JSString) : Nat :=
  let score := 0
  -- Length check
  let score := if password.length ≥ 8 then score + 1 else score
  let score := if password.length ≥ 12 then score + 1 else score
  -- Complexity checks
  let score := if reLower.test password then score + 1 else score
  let score := if reUpper.test password then score + 1 else score
  let score := if reDigit.test password then score + 1 else score
  let score := if reSpecial.test password then score + 1 else score
  min score 5

/-! ## ECMAScript numbers and primitive values -/

/-- An ECMAScript Number value. A finite double is represented by the
rational number it denotes: every binary64 value is a rational, and `!` and
`<`, the only operations the source applies to numbers, are exact on them
(`+0` and `-0` are both `fin 0`, which neither operation tells apart). -/
inductive JSNumber where
  | nan
  | posInf
  | negInf
  | fin (q : ℚ)
  deriving DecidableEq

/-- The primitive values a form field can hold. -/
inductive JSValue where
  | undefined
  | null
  | bool (b : Bool)
  | number (n : JSNumber)
  | string (s : JSString)
  deriving DecidableEq

/-- Round a rational to the nearest integer, ties to even. -/
def roundHalfEven (q : ℚ) : ℤ :=
  let f := ⌊q⌋
  let r := q - f
  if r < 1 / 2 then f
  else if 1 / 2 < r then f + 1
  else if f % 2 = 0 then f else f + 1

/-- The Number value for a mathematical value: the nearest IEEE 754 binary64
value, ties to even, overflowing to an infinity. -/
def roundToDouble (q : ℚ) : JSNumber :=
  if q = 0 then JSNumber.fin 0
  else
    let a := |q|
    let e := max (Int.log 2 a) (-1022)
    let ulp : ℚ := (2 : ℚ) ^ (e - 52)
    let r : ℚ := (roundHalfEven (a / ulp) : ℚ) * ulp
    if (2 : ℚ) ^ (1024 : ℕ) ≤ r then (if 0 < q then JSNumber.posInf else JSNumber.negInf)
    else JSNumber.fin (if 0 < q then r else -r)

/-- The code units `StrWhiteSpaceChar` of ECMA-262: white space and line
terminators. -/
def isStrWhiteSpace (u : CodeUnit) : Bool :=
  decide (u.val ∈ [9, 10, 11, 12, 13, 32, 160, 5760, 8232, 8233, 8239, 8287, 12288, 65279])
    || (decide (8192 ≤ u.val) && decide (u.val ≤ 8202))

/-- The value of a digit in the given radix (2, 8, 10 or 16), if it is one. -/
def digitValue (radix : Nat) (u : CodeUnit) : Option Nat :=
  let v : Option Nat :=
    if 48 ≤ u.val ∧ u.val ≤ 57 then some (u.val - 48)
    else if 97 ≤ u.val ∧ u.val ≤ 102 then some (u.val - 87)
    else if 65 ≤ u.val ∧ u.val ≤ 70 then some (u.val - 55)
    else none
  v.bind (fun d => if d < radix then some d else none)

/-- Whether the code unit is a decimal digit. -/
def isDecimalDigit (u : CodeUnit) : Bool :=
  (digitValue 10 u).isSome

/-- The natural number written by a non-empty sequence of digits of the given
radix; `none` when the sequence is empty or holds another code unit. -/
def parseDigits (radix : Nat) (s : JSString) : Option Nat :=
  if s = [] then none
  else s.foldl (fun acc u => acc.bind (fun n => (digitValue radix u).map (fun d => n * radix + d)))
    (some 0)

/-- The `ExponentPart_opt` that ends a decimal literal: nothing, or `e`/`E`
followed by an optionally signed non-empty run of decimal digits. -/
def parseExponent (s : JSString) : Option ℤ :=
  match s with
  | [] => some 0
  | u :: t =>
    if u.val = 101 ∨ u.val = 69 then
      match t with
      | [] => none
      | v :: w =>
        if v.val = 43 then (parseDigits 10 w).map (fun n => (n : ℤ))
        else if v.val = 45 then (parseDigits 10 w).map (fun n => -(n : ℤ))
        else (parseDigits 10 t).map (fun n => (n : ℤ))
    else none

/-- The mathematical value of a `StrUnsignedDecimalLiteral` other than
`Infinity`: `digits`, `digits.`, `digits.digits` or `.digits`, then an optional
exponent part; `none` when the text is not of that shape. -/
def parseUnsignedDecimal (s : JSString) : Option ℚ :=
  let intPart := s.takeWhile isDecimalDigit
  let rest := s.dropWhile isDecimalDigit
  let hasDot := decide (rest.head?.map (fun u => u.val) = some 46)
  let afterDot := if hasDot then rest.tail else rest
  let fracPart := if hasDot then afterDot.takeWhile isDecimalDigit else []
  let expPart := if hasDot then afterDot.dropWhile isDecimalDigit else afterDot
  if intPart = [] ∧ fracPart = [] then none
  else
    match parseDigits 10 (intPart ++ fracPart), parseExponent expPart with
    | some m, some e => some ((m : ℚ) * (10 : ℚ) ^ (e - (fracPart.length : ℤ)))
    | _, _ => none

/-- The abstract operation `StringToNumber` of ECMA-262: surrounding white space
is dropped; the empty text is `+0`; `0x`, `0o` and `0b` integers, `Infinity`
and decimal literals (both optionally signed) are read; anything else is NaN. -/
def stringToNumber (s : JSString) : JSNumber :=
  let t := ((s.dropWhile isStrWhiteSpace).reverse.dropWhile isStrWhiteSpace).reverse
  let nonDecimal (radix : Nat) (digits : JSString) : JSNumber :=
    match parseDigits radix digits with
    | some n => roundToDouble n
    | none => JSNumber.nan
  let unsigned (negative : Bool) (body : JSString) : JSNumber :=
    if body = js "Infinity" then (if negative then JSNumber.negInf else JSNumber.posInf)
    else
      match parseUnsignedDecimal body with
      | some q => roundToDouble (if negative then -q else q)
      | none => JSNumber.nan
  match t with
  | [] => JSNumber.fin 0
  | u :: r =>
    if u.val = 43 then unsigned false r
    else if u.val = 45 then unsigned true r
    else
      match r with
      | v :: digits =>
        if u.val = 48 ∧ (v.val = 120 ∨ v.val = 88) then nonDecimal 16 digits
        else if u.val = 48 ∧ (v.val = 111 ∨ v.val = 79) then nonDecimal 8 digits
        else if u.val = 48 ∧ (v.val = 98 ∨ v.val = 66) then nonDecimal 2 digits
        else unsigned false t
      | [] => unsigned false t

/-- The abstract operation `ToBoolean`: `undefined`, `null`, `false`, NaN, zero
and the empty string are falsy, every other primitive is truthy. -/
def toBoolean : JSValue → Bool
  | JSValue.undefined => false
  | JSValue.null => false
  | JSValue.bool b => b
  | JSValue.number JSNumber.nan => false
  | JSValue.number (JSNumber.fin q) => decide (q ≠ 0)
  | JSValue.number _ => true
  | JSValue.string s => decide (s ≠ [])

/-- The abstract operation `ToNumber` on primitives. -/
def toNumber : JSValue → JSNumber
  | JSValue.undefined => JSNumber.nan
  | JSValue.null => JSNumber.fin 0
  | JSValue.bool b => JSNumber.fin (if b then 1 else 0)
  | JSValue.number n => n
  | JSValue.string s => stringToNumber s

/-- The comparison `Number::lessThan` as `<` uses it: false as soon as one
side is NaN. -/
def JSNumber.lessThan : JSNumber → JSNumber → Bool
  | JSNumber.nan, _ => false
  | _, JSNumber.nan => false
  | JSNumber.negInf, JSNumber.negInf => false
  | JSNumber.negInf, _ => true
  | JSNumber.posInf, _ => false
  | JSNumber.fin _, JSNumber.negInf => false
  | JSNumber.fin _, JSNumber.posInf => true
  | JSNumber.fin a, JSNumber.fin b => decide (a < b)

/-- The expression `x < n` for a primitive `x` and a Number `n`, the only
shape of `<` in the source: the operands are not both strings, so `x` is
converted with `ToNumber` and the numbers are compared. -/
def ltNumber (x : JSValue) (n : JSNumber) : Bool :=
  (toNumber x).lessThan n

/-! ## `validateRegistrationForm` (auth.js, lines 59-89) -/

/-- The object passed to `validateRegistrationForm`. The five required fields
are strings; `service_type` and `hourly_rate` hold any primitive, `undefined`
standing for a property that is not there. -/
structure FormData where
  username : JSString
  email : JSString
  password : JSString
  confirm_password : JSString
  role : JSString
  service_type : JSValue
  hourly_rate : JSValue

/-- Message of the username-length check. -/
def msgUsername : String := "Username must be at least 3 characters"

/-- Message of the email check. -/
def msgEmail : String := "Please enter a valid email address"

/-- Message of the password-length check. -/
def msgPassword : String := "Password must be at least 8 characters"

/-- Message of the password-confirmation check. -/
def msgMismatch : String := "Passwords do not match"

/-- Message of the service-type check. -/
def msgServiceType : String := "Please select a service type"

/-- Message of the hourly-rate check. -/
def msgHourlyRate : String := "Hourly rate must be at least $15"

/-- The source function. `validateEmail` is defined outside `auth.js` and is
taken as a parameter; `errors.push(m)` appends `m` to the array. -/
def validateRegistrationForm (validateEmail : JSString → Bool) (formData : FormData) :
    List String :=
  let errors : List String := []
  let errors := if formData.username.length < 3 then errors ++ [msgUsername] else errors
  let errors := if !validateEmail formData.email then errors ++ [msgEmail] else errors
  let errors := if formData.password.length < 8 then errors ++ [msgPassword] else errors
  let errors :=
    if formData.password ≠ formData.confirm_password then errors ++ [msgMismatch] else errors
  let errors :=
    if formData.role = js "technician" then
      let errors := if !toBoolean formData.service_type then errors ++ [msgServiceType] else errors
      let errors :=
        if !toBoolean formData.hourly_rate || ltNumber formData.hourly_rate (JSNumber.fin 15) then
          errors ++ [msgHourlyRate]
        else errors
      errors
    else errors
  errors

/-! ## The scorer as the specification words it -/

/-- A lowercase ASCII letter `a`-`z`. -/
def isAsciiLower (u : CodeUnit) : Bool :=
  decide ('a'.toNat ≤ u.val ∧ u.val ≤ 'z'.toNat)

/-- An uppercase ASCII letter `A`-`Z`. -/
def isAsciiUpper (u : CodeUnit) : Bool :=
  decide ('A'.toNat ≤ u.val ∧ u.val ≤ 'Z'.toNat)

/-- An ASCII digit `0`-`9`. -/
def isAsciiDigit (u : CodeUnit) : Bool :=
  decide ('0'.toNat ≤ u.val ∧ u.val ≤ '9'.toNat)

/-- A character that is neither an ASCII letter nor an ASCII digit. -/
def isSpecial (u : CodeUnit) : Bool :=
  !(isAsciiLower u || isAsciiUpper u) && !isAsciiDigit u

/-- The six predicates of the scoring algorithm, in the order of the
specification. -/
def strengthPredicates : List (JSString → Bool) :=
  [fun p => decide (p.length ≥ 8),
   fun p => decide (p.length ≥ 12),
   fun p => p.any isAsciiLower,
   fun p => p.any isAsciiUpper,
   fun p => p.any isAsciiDigit,
   fun p => p.any isSpecial]

/-- The number of the six predicates that the password satisfies, each
counted independently. -/
def satisfiedCount (p : JSString) : Nat :=
  (strengthPredicates.filter (fun pred => pred p)).length

/-- One point for a satisfied predicate. -/
def point (b : Bool) : Nat :=
  if b then 1 else 0

/-! ## The validator as the specification words it -/

/-- The checks of the validator in their fixed order, each with its own
violation condition (a function of the input alone) and its message; the two
technician checks are present only when the role is `technician`. -/
def registrationChecks (validateEmail : JSString → Bool) (formData : FormData) :
    List (Bool × String) :=
  [(decide (formData.username.length < 3), msgUsername),
   (!validateEmail formData.email, msgEmail),
   (decide (formData.password.length < 8), msgPassword),
   (decide (formData.password ≠ formData.confirm_password), msgMismatch)]
  ++ (if formData.role = js "technician" then
        [(!toBoolean formData.service_type, msgServiceType),
         (!toBoolean formData.hourly_rate || ltNumber formData.hourly_rate (JSNumber.fin 15),
          msgHourlyRate)]
      else [])

/-- Run every check of the list and keep, in order, the message of each
violated one. -/
def runChecks (checks : List (Bool × String)) : List String :=
  (checks.filter (fun c => c.1)).map (fun c => c.2)

/-- The fixed six-message list, in field-check order. -/
def allMessages : List String :=
  [msgUsername, msgEmail, msgPassword, msgMismatch, msgServiceType, msgHourlyRate]

/-- An absent optional field: the property is missing (`undefined`) or
`null`. -/
def isAbsent (v : JSValue) : Prop :=
  v = JSValue.undefined ∨ v = JSValue.null

/-- An absent hourly rate in the sense of the specification: the property is
missing or `null`, or it is the malformed number NaN, which the specification
treats as absent. -/
def isAbsentRate (v : JSValue) : Prop :=
  isAbsent v ∨ v = JSValue.number JSNumber.nan

/-- A Number that is below the rational bound: minus infinity or a finite
value under it (NaN is below nothing). -/
def JSNumber.below (n : JSNumber) (bound : ℚ) : Prop :=
  n = JSNumber.negInf ∨ ∃ q : ℚ, n = JSNumber.fin q ∧ q < bound

/-- Modelled from the spec: `validateEmail` is called by `auth.js` but defined
outside it; the specification asks for a conventional `local@domain.tld` shape.
This is the usual pattern `^[^\s@]+@[^\s@]+\.[^\s@]+$`: no white space, exactly
one `@` with a non-empty local part, and a dot strictly inside what follows. It
only instantiates the parameter `validateEmail` at concrete inputs. -/
def validateEmailModel (email : JSString) : Bool :=
  let local_ := email.takeWhile (fun u => u.val ≠ 64)
  let domain := (email.dropWhile (fun u => u.val ≠ 64)).tail
  email.all (fun u => !isStrWhiteSpace u)
    && decide (email.count 64 = 1)
    && decide (local_ ≠ [])
    && (domain.tail.dropLast).any (fun u => u.val = 46)

/-- A technician registration without service type and with hourly rate 10. -/
def technicianRate10 : FormData :=
  { username := js "alice", email := js "alice@example.com", password := js "s3cretPass",
    confirm_password := js "s3cretPass", role := js "technician",
    service_type := JSValue.undefined, hourly_rate := JSValue.number (JSNumber.fin 10) }

/-- The registration `{username:"ab", email:"bad", password:"short",
confirm_password:"x", role:"other"}`. -/
def fourErrors : FormData :=
  { username := js "ab", email := js "bad", password := js "short",
    confirm_password := js "x", role := js "other",
    service_type := JSValue.undefined, hourly_rate := JSValue.undefined }

/-- A valid registration with role `other` whose optional fields hold
unusable values. -/
def validOther : FormData :=
  { username := js "alice", email := js "alice@example.com", password := js "s3cretPass",
    confirm_password := js "s3cretPass", role := js "other",
    service_type := JSValue.string [], hourly_rate := JSValue.string (js "abc") }

/-- A technician registration, valid but for its hourly rate, with the given
value as hourly rate. -/
def technicianWithRate (rate : JSValue) : FormData :=
  { username := js "alice", email := js "alice@example.com", password := js "s3cretPass",
    confirm_password := js "s3cretPass", role := js "technician",
    service_type := JSValue.string (js "plumbing"), hourly_rate := rate }

/-- A valid technician registration whose password is `Aa1!aaaaaaaa`. -/
def strongPasswordForm : FormData :=
  { username := js "alice", email := js "alice@example.com", password := js "Aa1!aaaaaaaa",
    confirm_password := js "Aa1!aaaaaaaa", role := js "technician",
    service_type := JSValue.string (js "plumbing"), hourly_rate := JSValue.number (JSNumber.fin 20) }

/-! ## The two functions on untyped arguments

JavaScript does not check that `password` or the required fields of `formData`
are strings. The definitions below evaluate the same source lines on arbitrary
primitives and record the one way a line can fail on them: reading `.length` of
`undefined` or `null` throws a `TypeError`. -/

/-- An exception thrown by the evaluation. -/
inductive JSError where
  | typeError
  deriving DecidableEq

/-- The property read `x.length`: a `TypeError` on `undefined` and `null`, the
number of code units of a string, and `undefined` on a boolean or a number
(their wrapper objects have no such property). -/
def getLength : JSValue → Except JSError JSValue
  | JSValue.undefined => Except.error JSError.typeError
  | JSValue.null => Except.error JSError.typeError
  | JSValue.string s => Except.ok (JSValue.number (JSNumber.fin (s.length : ℚ)))
  | _ => Except.ok JSValue.undefined

/-- The expression `x >= n` for a primitive `x` and a Number `n`: false when
either side is NaN, otherwise the negation of `x < n`. -/
def geNumber (x : JSValue) (n : JSNumber) : Bool :=
  match toNumber x, n with
  | JSNumber.nan, _ => false
  | _, JSNumber.nan => false
  | a, b => !a.lessThan b

/-- Strict equality `===` on primitives: same type and same value, NaN being
different from itself. -/
def strictEquals : JSValue → JSValue → Bool
  | JSValue.number JSNumber.nan, _ => false
  | _, JSValue.number JSNumber.nan => false
  | a, b => decide (a = b)

/-- The abstract operation `ToString` on primitives, as `RegExp.prototype.test`
applies it to its argument. `numberToString` is `Number::toString`, which is
reached only for a Number argument. -/
def toStringValue (numberToString : JSNumber → JSString) : JSValue → JSString
  | JSValue.undefined => js "undefined"
  | JSValue.null => js "null"
  | JSValue.bool b => if b then js "true" else js "false"
  | JSValue.number n => numberToString n
  | JSValue.string s => s

/-- The function `calculatePasswordStrength` (auth.js, lines 32-46) on an
arbitrary primitive argument. -/
def calculatePasswordStrengthUntyped (numberToString : JSNumber → JSString)
    (password : JSValue) : Except JSError Nat := do
  let score := 0
  -- Length check
  let len ← getLength password
  let score := if geNumber len (JSNumber.fin 8) then score + 1 else score
  let len ← getLength password
  let score := if geNumber len (JSNumber.fin 12) then score + 1 else score
  -- Complexity checks
  let text := toStringValue numberToString password
  let score := if reLower.test text then score + 1 else score
  let score := if reUpper.test text then score + 1 else score
  let score := if reDigit.test text then score + 1 else score
  let score := if reSpecial.test text then score + 1 else score
  return min score 5

/-- An object passed to `validateRegistrationForm` without any assumption on
the types of its properties; `undefined` stands for a missing property. -/
structure UntypedFormData where
  username : JSValue
  email : JSValue
  password : JSValue
  confirm_password : JSValue
  role : JSValue
  service_type : JSValue
  hourly_rate : JSValue

/-- A `FormData` seen as an untyped object. -/
def FormData.toUntyped (formData : FormData) : UntypedFormData :=
  { username := JSValue.string formData.username, email := JSValue.string formData.email,
    password := JSValue.string formData.password,
    confirm_password := JSValue.string formData.confirm_password,
    role := JSValue.string formData.role, service_type := formData.service_type,
    hourly_rate := formData.hourly_rate }

/-- The function `validateRegistrationForm` (auth.js, lines 59-89) on an
untyped object. `validateEmail` is taken as a parameter that returns for every
primitive. -/
def validateRegistrationFormUntyped (validateEmail : JSValue → Bool)
    (formData : UntypedFormData) : Except JSError (List String) := do
  let errors : List String := []
  let len ← getLength formData.username
  let errors := if ltNumber len (JSNumber.fin 3) then errors ++ [msgUsername] else errors
  let errors := if !validateEmail formData.email then errors ++ [msgEmail] else errors
  let len ← getLength formData.password
  let errors := if ltNumber len (JSNumber.fin 8) then errors ++ [msgPassword] else errors
  let errors :=
    if !strictEquals formData.password formData.confirm_password then errors ++ [msgMismatch]
    else errors
  let errors :=
    if strictEquals formData.role (JSValue.string (js "technician")) then
      let errors := if !toBoolean formData.service_type then errors ++ [msgServiceType] else errors
      let errors :=
        if !toBoolean formData.hourly_rate || ltNumber formData.hourly_rate (JSNumber.fin 15) then
          errors ++ [msgHourlyRate]
        else errors
      errors
    else errors
  return errors

/-! ## Consecutive calls of the validator

The only variable the body of `validateRegistrationForm` writes is the array
`errors`. To state that no call sees what an earlier call did, the body is also
given as a list of statements acting on that array, and the array a call ends
with is handed to the next call. -/

/-- A statement of the body, as it acts on `errors`: the declaration
`const errors = []` of line 60, or an `if (c) errors.push(m)`. -/
inductive ErrorsStmt where
  | declare
  | pushWhen (c : Bool) (m : String)

/-- The effect of one statement on the array. -/
def ErrorsStmt.exec : ErrorsStmt → List String → List String
  | ErrorsStmt.declare, _ => []
  | ErrorsStmt.pushWhen c m, errors => if c then errors ++ [m] else errors

/-- The statements that one call executes, in source order (lines 60-86). -/
def validateRegistrationFormStmts (validateEmail : JSString → Bool) (formData : FormData) :
    List ErrorsStmt :=
  [ErrorsStmt.declare,
   ErrorsStmt.pushWhen (decide (formData.username.length < 3)) msgUsername,
   ErrorsStmt.pushWhen (!validateEmail formData.email) msgEmail,
   ErrorsStmt.pushWhen (decide (formData.password.length < 8)) msgPassword,
   ErrorsStmt.pushWhen (decide (formData.password ≠ formData.confirm_password)) msgMismatch]
  ++ (if formData.role = js "technician" then
        [ErrorsStmt.pushWhen (!toBoolean formData.service_type) msgServiceType,
         ErrorsStmt.pushWhen
           (!toBoolean formData.hourly_rate || ltNumber formData.hourly_rate (JSNumber.fin 15))
           msgHourlyRate]
      else [])

/-- One call: the statements run in order, starting from whatever array the
previous call left, and the final array is returned (line 88). -/
def callValidate (validateEmail : JSString → Bool) (leftover : List String)
    (formData : FormData) : List String :=
  (validateRegistrationFormStmts validateEmail formData).foldl
    (fun errors stmt => stmt.exec errors) leftover

/-- The outputs of consecutive calls, each call starting from the array that
the call before it returned. -/
def callSequence (validateEmail : JSString → Bool) :
    List String → List FormData → List (List String)
  | _, [] => []
  | leftover, formData :: rest =>
    callValidate validateEmail leftover formData
      :: callSequence validateEmail (callValidate validateEmail leftover formData) rest

/-! ## `updatePasswordStrength` (auth.js, lines 48-56) and its caller -/

/-- The two style properties of the indicator element that the function
writes: `background` holds a primitive, `width` the number `n` of the text
`n%` produced by the template of line 54. -/
structure IndicatorStyle where
  background : JSValue
  width : Nat

/-- The array `colors` of line 52. -/
def colors : List JSString :=
  [js "#f44336", js "#ff5722", js "#ff9800", js "#ffc107", js "#8bc34a", js "#4CAF50"]

/-- The element read `a[i]` of an array of strings: `undefined` outside the
array. -/
def arrayGet (a : List JSString) (i : Nat) : JSValue :=
  match a.get? i with
  | some c => JSValue.string c
  | none => JSValue.undefined

/-- The source function; `none` is an indicator element that
`document.querySelector` did not find. -/
def updatePasswordStrength (indicator : Option IndicatorStyle) (strength : Nat) :
    Option IndicatorStyle :=
  match indicator with
  | none => none
  | some style =>
    let style := { style with background := arrayGet colors 0 }
    let style := { style with width := strength * 20 }
    let style := { style with background := arrayGet colors strength }
    some style

/-- The `input` listener of the password field (lines 7-11): the value of the
field is scored and the indicator is updated with the score. -/
def onPasswordInput (indicator : Option IndicatorStyle) (value : JSString) :
    Option IndicatorStyle :=
  let password := value
  let strength := calculatePasswordStrength password
  updatePasswordStrength indicator strength

/-! ## Facts about the character classes and the scorer -/

theorem reLower_test (p : JSString) : reLower.test p = p.any isAsciiLower := by
  unfold CharClass.test
  congr 1
  funext u
  simp [CharClass.matches, reLower, isAsciiLower]

theorem reUpper_test (p : JSString) : reUpper.test p = p.any isAsciiUpper := by
  unfold CharClass.test
  congr 1
  funext u
  simp [CharClass.matches, reUpper, isAsciiUpper]

theorem reDigit_test (p : JSString) : reDigit.test p = p.any isAsciiDigit := by
  unfold CharClass.test
  congr 1
  funext u
  simp [CharClass.matches, reDigit, isAsciiDigit]

theorem reSpecial_test (p : JSString) : reSpecial.test p = p.any isSpecial := by
  unfold CharClass.test
  congr 1
  funext u
  rw [Bool.eq_iff_iff]
  simp [CharClass.matches, reSpecial, isSpecial, isAsciiLower, isAsciiUpper, isAsciiDigit]
  omega

theorem point_le_of_imp {a b : Bool} (h : a = true → b = true) : point a ≤ point b := by
  cases a <;> cases b <;> simp_all [point]

/-- The scorer is the clamped sum of the six points. -/
theorem calculatePasswordStrength_eq_points (p : JSString) :
    calculatePasswordStrength p =
      min (point (decide (p.length ≥ 8)) + point (decide (p.length ≥ 12))
        + point (reLower.test p) + point (reUpper.test p) + point (reDigit.test p)
        + point (reSpecial.test p)) 5 := by
  unfold calculatePasswordStrength point
  by_cases h8 : p.length ≥ 8 <;> by_cases h12 : p.length ≥ 12 <;>
    cases reLower.test p <;> cases reUpper.test p <;> cases reDigit.test p <;>
    cases reSpecial.test p <;> simp [h8, h12]

theorem test_append (cls : CharClass) (p s : JSString) :
    cls.test (p ++ s) = (cls.test p || cls.test s) := by
  simp [CharClass.test, List.any_append]

/-! ## Claims about `calculatePasswordStrength` -/

/-- C1: for every string `p`, `calculatePasswordStrength p` equals `min 5 n`
where `n` is the number of the six predicates (length at least 8, length at
least 12, a lowercase ASCII letter, an uppercase ASCII letter, an ASCII digit, a
character that is neither an ASCII letter nor an ASCII digit) that `p` satisfies,
each counted independently. -/
theorem calculatePasswordStrength_eq_min_count (p : JSString) :
    calculatePasswordStrength p = min 5 (satisfiedCount p) := by
  rw [calculatePasswordStrength_eq_points, reLower_test, reUpper_test, reDigit_test,
    reSpecial_test]
  simp only [satisfiedCount, strengthPredicates, List.filter, point]
  by_cases h8 : p.length ≥ 8 <;> by_cases h12 : p.length ≥ 12 <;>
    cases p.any isAsciiLower <;> cases p.any isAsciiUpper <;> cases p.any isAsciiDigit <;>
    cases p.any isSpecial <;> simp [h8, h12]

/-- C3: for every string `p`, the score is an integer between 0 and 5; it never
exceeds 5. -/
theorem calculatePasswordStrength_bounds (p : JSString) :
    0 ≤ calculatePasswordStrength p ∧ calculatePasswordStrength p ≤ 5 := by
  refine ⟨Nat.zero_le _, ?_⟩
  rw [calculatePasswordStrength_eq_points]
  exact Nat.min_le_right _ _

/-- C4: the score is monotonically non-decreasing under appending characters:
for all strings `p` and `s`, the score of `p ++ s` is at least the score of
`p`. -/
theorem calculatePasswordStrength_mono_append (p s : JSString) :
    calculatePasswordStrength p ≤ calculatePasswordStrength (p ++ s) := by
  rw [calculatePasswordStrength_eq_points, calculatePasswordStrength_eq_points]
  have h1 : point (decide (p.length ≥ 8)) ≤ point (decide ((p ++ s).length ≥ 8)) := by
    apply point_le_of_imp
    simp only [decide_eq_true_eq, List.length_append]
    omega
  have h2 : point (decide (p.length ≥ 12)) ≤ point (decide ((p ++ s).length ≥ 12)) := by
    apply point_le_of_imp
    simp only [decide_eq_true_eq, List.length_append]
    omega
  have h3 : ∀ cls : CharClass, point (cls.test p) ≤ point (cls.test (p ++ s)) := by
    intro cls
    apply point_le_of_imp
    intro h
    simp [test_append, h]
  have h4 := h3 reLower
  have h5 := h3 reUpper
  have h6 := h3 reDigit
  have h7 := h3 reSpecial
  omega

/-! ## Facts about the validator -/

/-- Pushing a message when a condition holds appends a list of at most one
message. -/
theorem push_ite (c : Prop) [Decidable c] (errors : List String) (m : String) :
    (if c then errors ++ [m] else errors) = errors ++ (if c then [m] else []) := by
  split <;> simp

/-- The validator is the four generic checks followed, for a technician, by
the two technician checks. -/
theorem validateRegistrationForm_eq_append (validateEmail : JSString → Bool)
    (formData : FormData) :
    validateRegistrationForm validateEmail formData =
      (if formData.username.length < 3 then [msgUsername] else [])
      ++ (if validateEmail formData.email = false then [msgEmail] else [])
      ++ (if formData.password.length < 8 then [msgPassword] else [])
      ++ (if formData.password ≠ formData.confirm_password then [msgMismatch] else [])
      ++ (if formData.role = js "technician" then
            (if toBoolean formData.service_type = false then [msgServiceType] else [])
            ++ (if toBoolean formData.hourly_rate = false
                  ∨ ltNumber formData.hourly_rate (JSNumber.fin 15) = true
                then [msgHourlyRate] else [])
          else []) := by
  unfold validateRegistrationForm
  simp only [push_ite, List.nil_append, Bool.not_eq_true', Bool.or_eq_true]
  by_cases h5 : formData.role = js "technician"
  · simp only [h5, if_true, List.append_assoc]
  · simp only [h5, if_false, List.append_nil]

theorem runChecks_cons (b : Bool) (m : String) (cs : List (Bool × String)) :
    runChecks ((b, m) :: cs) = (if b = true then [m] else []) ++ runChecks cs := by
  cases b <;> simp [runChecks, List.filter]

theorem validateRegistrationForm_eq_runChecks (validateEmail : JSString → Bool)
    (formData : FormData) :
    validateRegistrationForm validateEmail formData =
      runChecks (registrationChecks validateEmail formData) := by
  rw [validateRegistrationForm_eq_append]
  unfold registrationChecks
  by_cases h5 : formData.role = js "technician"
  · simp only [h5, if_true, List.cons_append, List.nil_append, runChecks_cons]
    simp [runChecks]
  · simp only [h5, if_false, List.cons_append, List.nil_append, runChecks_cons]
    simp [runChecks]

theorem allMessages_nodup : allMessages.Nodup := by
  decide

theorem ltNumber_number (n : JSNumber) (m : JSNumber) :
    ltNumber (JSValue.number n) m = n.lessThan m := rfl

theorem lessThan_fin_iff (n : JSNumber) (b : ℚ) :
    n.lessThan (JSNumber.fin b) = true ↔ n.below b := by
  cases n <;> simp [JSNumber.lessThan, JSNumber.below]

/-- For a Number as hourly rate the check fires exactly when it is NaN or
below 15. -/
theorem rate_check_number (n : JSNumber) :
    (toBoolean (JSValue.number n) = false ∨ ltNumber (JSValue.number n) (JSNumber.fin 15) = true)
      ↔ (n = JSNumber.nan ∨ n.below 15) := by
  rw [ltNumber_number, lessThan_fin_iff]
  cases n with
  | nan => simp [toBoolean]
  | posInf => simp [toBoolean]
  | negInf => simp [toBoolean]
  | fin q =>
    simp only [toBoolean, JSNumber.below]
    constructor
    · rintro (h | h)
      · right; right
        refine ⟨q, rfl, ?_⟩
        have : q = 0 := by simpa using h
        rw [this]; norm_num
      · exact Or.inr h
    · rintro (h | h)
      · cases h
      · exact Or.inr h

/-- Membership in the result, message by message. -/
theorem mem_validateRegistrationForm (validateEmail : JSString → Bool) (formData : FormData)
    (m : String) :
    m ∈ validateRegistrationForm validateEmail formData ↔
      (m = msgUsername ∧ formData.username.length < 3)
      ∨ (m = msgEmail ∧ validateEmail formData.email = false)
      ∨ (m = msgPassword ∧ formData.password.length < 8)
      ∨ (m = msgMismatch ∧ formData.password ≠ formData.confirm_password)
      ∨ (m = msgServiceType ∧ formData.role = js "technician"
          ∧ toBoolean formData.service_type = false)
      ∨ (m = msgHourlyRate ∧ formData.role = js "technician"
          ∧ (toBoolean formData.hourly_rate = false
              ∨ ltNumber formData.hourly_rate (JSNumber.fin 15) = true)) := by
  rw [validateRegistrationForm_eq_append]
  simp only [List.mem_append]
  have ite_mem : ∀ (c : Prop) [Decidable c] (x : String),
      m ∈ (if c then [x] else []) ↔ (m = x ∧ c) := by
    intro c _ x
    split <;> simp [*]
  by_cases h5 : formData.role = js "technician"
  · simp only [h5, if_true, List.mem_append, ite_mem, true_and, or_assoc]
  · simp only [h5, if_false, List.not_mem_nil, ite_mem, false_and, and_false, or_false, or_assoc]

/-! ## Claims about `validateRegistrationForm` -/

/-- C2: for every registration input the validator returns exactly the list
obtained by running all checks in the fixed order username-length, email,
password-length, password-mismatch, then (only for a technician) service-type
and hourly-rate, keeping each check's message if and only if that check's own
condition is violated; no check depends on an earlier one. The email check is
the external predicate `validateEmail` applied to the email field. -/
theorem validateRegistrationForm_runs_all_checks (validateEmail : JSString → Bool)
    (formData : FormData) :
    validateRegistrationForm validateEmail formData
        = runChecks (registrationChecks validateEmail formData)
      ∧ (msgUsername ∈ validateRegistrationForm validateEmail formData
          ↔ formData.username.length < 3)
      ∧ (msgEmail ∈ validateRegistrationForm validateEmail formData
          ↔ validateEmail formData.email = false)
      ∧ (msgPassword ∈ validateRegistrationForm validateEmail formData
          ↔ formData.password.length < 8)
      ∧ (msgMismatch ∈ validateRegistrationForm validateEmail formData
          ↔ formData.password ≠ formData.confirm_password)
      ∧ (msgServiceType ∈ validateRegistrationForm validateEmail formData
          ↔ formData.role = js "technician" ∧ toBoolean formData.service_type = false)
      ∧ (msgHourlyRate ∈ validateRegistrationForm validateEmail formData
          ↔ formData.role = js "technician"
            ∧ (toBoolean formData.hourly_rate = false
                ∨ ltNumber formData.hourly_rate (JSNumber.fin 15) = true)) := by
  refine ⟨validateRegistrationForm_eq_runChecks validateEmail formData, ?_, ?_, ?_, ?_, ?_, ?_⟩ <;>
    rw [mem_validateRegistrationForm] <;>
    simp [msgUsername, msgEmail, msgPassword, msgMismatch, msgServiceType, msgHourlyRate]

/-- C5: evaluation at the failing input. With role `technician` and the
non-numeric string `"abc"` as hourly rate the validator does not produce
"Hourly rate must be at least $15" (the string is truthy and `"abc" < 15`
compares NaN with 15), whereas with NaN as hourly rate it does. -/
theorem hourly_rate_abc_not_rejected (validateEmail : JSString → Bool) :
    msgHourlyRate ∉
        validateRegistrationForm validateEmail (technicianWithRate (JSValue.string (js "abc")))
      ∧ msgHourlyRate ∈
        validateRegistrationForm validateEmail (technicianWithRate (JSValue.number JSNumber.nan)) := by
  have h1 : toBoolean (JSValue.string (js "abc")) = true := by decide
  have h2 : ltNumber (JSValue.string (js "abc")) (JSNumber.fin 15) = false := by decide
  have h3 : toBoolean (JSValue.number JSNumber.nan) = false := rfl
  constructor
  · rw [mem_validateRegistrationForm]
    simp [technicianWithRate, h1, h2, msgUsername, msgEmail, msgPassword, msgMismatch,
      msgServiceType, msgHourlyRate]
  · rw [mem_validateRegistrationForm]
    simp [technicianWithRate, h3, msgUsername, msgEmail, msgPassword, msgMismatch,
      msgServiceType, msgHourlyRate]

/-- The guard of line 83 fires exactly when the rate is absent in the sense of
the specification or compares below 15. -/
theorem rate_check_iff (v : JSValue) :
    (toBoolean v = false ∨ ltNumber v (JSNumber.fin 15) = true)
      ↔ (isAbsentRate v ∨ ltNumber v (JSNumber.fin 15) = true) := by
  constructor
  · rintro (h | h)
    · cases v with
      | undefined => exact Or.inl (Or.inl (Or.inl rfl))
      | null => exact Or.inl (Or.inl (Or.inr rfl))
      | bool b =>
        right
        have hb : b = false := by simpa [toBoolean] using h
        subst hb
        simp [ltNumber, toNumber, JSNumber.lessThan]
      | number n =>
        cases n with
        | nan => exact Or.inl (Or.inr rfl)
        | posInf => simp [toBoolean] at h
        | negInf => simp [toBoolean] at h
        | fin q =>
          right
          have hq : q = 0 := by simpa [toBoolean] using h
          subst hq
          simp [ltNumber, toNumber, JSNumber.lessThan]
      | string s =>
        right
        have hs : s = [] := by simpa [toBoolean] using h
        subst hs
        have h0 : stringToNumber [] = JSNumber.fin 0 := by decide
        simp [ltNumber, toNumber, h0, JSNumber.lessThan]
    · exact Or.inr h
  · rintro (h | h)
    · left
      rcases h with (h | h) | h <;> rw [h] <;> rfl
    · exact Or.inr h

/-- C6: for every input with role `technician`, the result contains "Hourly
rate must be at least $15" if and only if `hourly_rate` is absent (missing,
`null`, or the malformed number NaN, which the specification treats as absent)
or `hourly_rate < 15`; for a Number this is NaN or a value below 15. A rate of
exactly 15 does not trigger the message and a rate of 0 does. -/
theorem hourly_rate_message_iff (validateEmail : JSString → Bool) (formData : FormData)
    (hrole : formData.role = js "technician") :
    (msgHourlyRate ∈ validateRegistrationForm validateEmail formData
        ↔ (isAbsentRate formData.hourly_rate
            ∨ ltNumber formData.hourly_rate (JSNumber.fin 15) = true))
      ∧ (∀ n : JSNumber, formData.hourly_rate = JSValue.number n →
          (msgHourlyRate ∈ validateRegistrationForm validateEmail formData
            ↔ (n = JSNumber.nan ∨ n.below 15)))
      ∧ (formData.hourly_rate = JSValue.number (JSNumber.fin 15)
          → msgHourlyRate ∉ validateRegistrationForm validateEmail formData)
      ∧ (formData.hourly_rate = JSValue.number (JSNumber.fin 0)
          → msgHourlyRate ∈ validateRegistrationForm validateEmail formData) := by
  have key : msgHourlyRate ∈ validateRegistrationForm validateEmail formData
      ↔ (toBoolean formData.hourly_rate = false
          ∨ ltNumber formData.hourly_rate (JSNumber.fin 15) = true) := by
    rw [mem_validateRegistrationForm]
    simp [hrole, msgUsername, msgEmail, msgPassword, msgMismatch, msgServiceType, msgHourlyRate]
  refine ⟨?_, ?_, ?_, ?_⟩
  · rw [key, rate_check_iff]
  · intro n h
    rw [key, h, rate_check_number]
  · intro h
    rw [key, h, rate_check_number]
    simp [JSNumber.below]
  · intro h
    rw [key, h, rate_check_number]
    right; right
    exact ⟨0, rfl, by norm_num⟩

/-- C6, witness: a technician with hourly rate 0 gets the message, and one
with hourly rate 15 does not. -/
theorem hourly_rate_message_iff_witness :
    msgHourlyRate ∈ validateRegistrationForm validateEmailModel
        (technicianWithRate (JSValue.number (JSNumber.fin 0)))
      ∧ msgHourlyRate ∉ validateRegistrationForm validateEmailModel
        (technicianWithRate (JSValue.number (JSNumber.fin 15))) :=
  ⟨(hourly_rate_message_iff validateEmailModel
      (technicianWithRate (JSValue.number (JSNumber.fin 0))) rfl).2.2.2 rfl,
   (hourly_rate_message_iff validateEmailModel
      (technicianWithRate (JSValue.number (JSNumber.fin 15))) rfl).2.2.1 rfl⟩

/-- C7: for every input with role `technician`, no (absent or empty) service
type and an hourly rate below 15, the result is the result for the same input
with role `other`, followed by exactly "Please select a service type" and
"Hourly rate must be at least $15" in that order. -/
theorem technician_messages_after_generic (validateEmail : JSString → Bool)
    (formData : FormData) (n : JSNumber)
    (hrole : formData.role = js "technician")
    (hservice : isAbsent formData.service_type ∨ formData.service_type = JSValue.string [])
    (hrate : formData.hourly_rate = JSValue.number n) (hlow : n.below 15) :
    validateRegistrationForm validateEmail formData =
      validateRegistrationForm validateEmail { formData with role := js "other" }
        ++ [msgServiceType, msgHourlyRate] := by
  have hother : js "other" ≠ js "technician" := by decide
  have hst : toBoolean formData.service_type = false := by
    rcases hservice with (h | h) | h <;> rw [h] <;> rfl
  have hr : toBoolean formData.hourly_rate = false
      ∨ ltNumber formData.hourly_rate (JSNumber.fin 15) = true := by
    rw [hrate, rate_check_number]
    exact Or.inr hlow
  rw [validateRegistrationForm_eq_append, validateRegistrationForm_eq_append]
  simp only [hrole, hother, if_true, if_false, hst, hr, List.append_nil]
  rfl

/-- C7, witness: role `technician`, no service type, hourly rate 10. -/
theorem technician_messages_after_generic_witness :
    validateRegistrationForm validateEmailModel technicianRate10 =
      validateRegistrationForm validateEmailModel { technicianRate10 with role := js "other" }
        ++ [msgServiceType, msgHourlyRate] :=
  technician_messages_after_generic validateEmailModel technicianRate10 (JSNumber.fin 10)
    rfl (Or.inl (Or.inl rfl)) rfl (Or.inr ⟨10, rfl, by norm_num⟩)

/-- C8: for every input with role `other` whose username is shorter than 3
characters, whose email fails the email predicate, whose password is shorter
than 8 characters and whose confirmation differs from the password, the result
is exactly the four generic messages in the fixed order. -/
theorem four_generic_messages (validateEmail : JSString → Bool) (formData : FormData)
    (hrole : formData.role = js "other")
    (huser : formData.username.length < 3)
    (hemail : validateEmail formData.email = false)
    (hpass : formData.password.length < 8)
    (hconfirm : formData.confirm_password ≠ formData.password) :
    validateRegistrationForm validateEmail formData =
      [msgUsername, msgEmail, msgPassword, msgMismatch] := by
  have hother : js "other" ≠ js "technician" := by decide
  have hne : formData.password ≠ formData.confirm_password := fun h => hconfirm h.symm
  rw [validateRegistrationForm_eq_append]
  simp only [hrole, hother, huser, hemail, hpass, hne, if_true, if_false, ne_eq,
    not_false_eq_true, List.append_nil]
  rfl

/-- C8, witness: `{username:"ab", email:"bad", password:"short",
confirm_password:"x", role:"other"}`. -/
theorem four_generic_messages_witness :
    validateRegistrationForm validateEmailModel fourErrors =
      [msgUsername, msgEmail, msgPassword, msgMismatch] :=
  four_generic_messages validateEmailModel fourErrors rfl (by decide) (by decide) (by decide)
    (by decide)

/-- C9: a fully valid submission whose role is not `technician` (username of
length at least 3, accepted email, password of length at least 8, matching
confirmation) yields the empty list, whatever `service_type` and `hourly_rate`
hold. -/
theorem valid_non_technician_no_errors (validateEmail : JSString → Bool) (formData : FormData)
    (hrole : formData.role ≠ js "technician")
    (huser : 3 ≤ formData.username.length)
    (hemail : validateEmail formData.email = true)
    (hpass : 8 ≤ formData.password.length)
    (hconfirm : formData.confirm_password = formData.password) :
    validateRegistrationForm validateEmail formData = [] := by
  rw [validateRegistrationForm_eq_append]
  have h1 : ¬ formData.username.length < 3 := by omega
  have h3 : ¬ formData.password.length < 8 := by omega
  simp [hrole, h1, h3, hemail, hconfirm]

/-- C9, witness: a valid `other` registration with an empty service type and
the hourly rate `"abc"`. -/
theorem valid_non_technician_no_errors_witness :
    validateRegistrationForm validateEmailModel validOther = [] :=
  valid_non_technician_no_errors validateEmailModel validOther (by decide) (by decide)
    (by decide) (by decide) rfl

/-- C10: for every input the result is an order-preserving sublist, without
repetition, of the fixed six-message list. -/
theorem validateRegistrationForm_sublist_allMessages (validateEmail : JSString → Bool)
    (formData : FormData) :
    List.Sublist (validateRegistrationForm validateEmail formData) allMessages
      ∧ (validateRegistrationForm validateEmail formData).Nodup := by
  have one : ∀ (c : Prop) [Decidable c] (m : String),
      List.Sublist (if c then [m] else []) [m] := by
    intro c _ m
    split <;> simp
  have sub : List.Sublist (validateRegistrationForm validateEmail formData) allMessages := by
    rw [validateRegistrationForm_eq_append]
    show List.Sublist _
      ([msgUsername] ++ [msgEmail] ++ [msgPassword] ++ [msgMismatch]
        ++ ([msgServiceType] ++ [msgHourlyRate]))
    refine List.Sublist.append (List.Sublist.append (List.Sublist.append
      (List.Sublist.append (one _ _) (one _ _)) (one _ _)) (one _ _)) ?_
    by_cases h5 : formData.role = js "technician"
    · simp only [h5, if_true]
      exact List.Sublist.append (one _ _) (one _ _)
    · simp only [h5, if_false]
      exact List.nil_sublist _
  exact ⟨sub, List.Nodup.sublist sub allMessages_nodup⟩

/-! ## Facts used by the later claims -/

theorem point_le_one (b : Bool) : point b ≤ 1 := by
  cases b <;> simp [point]

theorem point_any_append (f : CodeUnit → Bool) (p s : JSString) :
    point (p.any f) ≤ point ((p ++ s).any f) := by
  apply point_le_of_imp
  intro h
  simp [List.any_append, h]

theorem point_length_append (k : Nat) (p s : JSString) :
    point (decide (p.length ≥ k)) ≤ point (decide ((p ++ s).length ≥ k)) := by
  apply point_le_of_imp
  simp only [decide_eq_true_eq, List.length_append]
  omega

/-- The scorer as the clamped sum of the points of the six predicates of the
specification. -/
theorem calculatePasswordStrength_eq_spec_points (p : JSString) :
    calculatePasswordStrength p =
      min (point (decide (p.length ≥ 8)) + point (decide (p.length ≥ 12))
        + point (p.any isAsciiLower) + point (p.any isAsciiUpper) + point (p.any isAsciiDigit)
        + point (p.any isSpecial)) 5 := by
  rw [calculatePasswordStrength_eq_points, reLower_test, reUpper_test, reDigit_test,
    reSpecial_test]

/-- Every code unit is in one of the four classes. -/
theorem matches_some_class (u : CodeUnit) :
    isAsciiLower u = true ∨ isAsciiUpper u = true ∨ isAsciiDigit u = true
      ∨ isSpecial u = true := by
  simp only [isSpecial]
  cases isAsciiLower u <;> cases isAsciiUpper u <;> cases isAsciiDigit u <;> simp

theorem geNumber_length (s : JSString) (k : Nat) :
    geNumber (JSValue.number (JSNumber.fin (s.length : ℚ))) (JSNumber.fin (k : ℚ))
      = decide (s.length ≥ k) := by
  rw [Bool.eq_iff_iff]
  simp [geNumber, toNumber, JSNumber.lessThan]

theorem ltNumber_length (s : JSString) (k : Nat) :
    ltNumber (JSValue.number (JSNumber.fin (s.length : ℚ))) (JSNumber.fin (k : ℚ))
      = decide (s.length < k) := by
  rw [Bool.eq_iff_iff]
  simp [ltNumber, toNumber, JSNumber.lessThan]

theorem strictEquals_string (a b : JSString) :
    strictEquals (JSValue.string a) (JSValue.string b) = decide (a = b) := by
  simp [strictEquals]

/-- On a string the untyped scorer returns what the scorer returns. -/
theorem calculatePasswordStrengthUntyped_string (numberToString : JSNumber → JSString)
    (p : JSString) :
    calculatePasswordStrengthUntyped numberToString (JSValue.string p)
      = Except.ok (calculatePasswordStrength p) := by
  have h8 := geNumber_length p 8
  have h12 := geNumber_length p 12
  simp only [Nat.cast_ofNat] at h8 h12
  simp only [calculatePasswordStrengthUntyped, getLength, toStringValue, h8, h12,
    calculatePasswordStrength, bind, Except.bind, pure, Except.pure, decide_eq_true_eq]

/-- Without a password the untyped scorer throws: the failure that the
untyped evaluation records is reachable. -/
theorem calculatePasswordStrengthUntyped_undefined (numberToString : JSNumber → JSString) :
    calculatePasswordStrengthUntyped numberToString JSValue.undefined
      = Except.error JSError.typeError := rfl

/-- On a typed input the untyped validator returns what the validator
returns. -/
theorem validateRegistrationFormUntyped_typed (validateEmail : JSValue → Bool)
    (formData : FormData) :
    validateRegistrationFormUntyped validateEmail formData.toUntyped
      = Except.ok
          (validateRegistrationForm (fun e => validateEmail (JSValue.string e)) formData) := by
  have h3 := ltNumber_length formData.username 3
  have h8 := ltNumber_length formData.password 8
  have hrole : ∀ a : JSString, (JSValue.string formData.role = JSValue.string a)
      = (formData.role = a) := by
    intro a
    simp
  simp only [Nat.cast_ofNat] at h3 h8
  simp only [validateRegistrationFormUntyped, FormData.toUntyped, getLength, h3, h8,
    strictEquals_string, validateRegistrationForm, bind, Except.bind, pure, Except.pure,
    decide_eq_true_eq, Bool.not_eq_true', decide_eq_false_iff_not, ne_eq]

/-- Without a username the untyped validator throws. -/
theorem validateRegistrationFormUntyped_missing_username (validateEmail : JSValue → Bool)
    (formData : FormData) :
    validateRegistrationFormUntyped validateEmail
        { formData.toUntyped with username := JSValue.undefined }
      = Except.error JSError.typeError := rfl

/-- A call returns the validator's result whatever array it starts from. -/
theorem callValidate_eq (validateEmail : JSString → Bool) (leftover : List String)
    (formData : FormData) :
    callValidate validateEmail leftover formData
      = validateRegistrationForm validateEmail formData := by
  unfold callValidate validateRegistrationFormStmts validateRegistrationForm
  by_cases h5 : formData.role = js "technician"
  · simp only [h5, if_true, List.cons_append, List.nil_append, List.foldl, ErrorsStmt.exec,
      decide_eq_true_eq]
  · simp only [h5, if_false, List.append_nil, List.foldl, ErrorsStmt.exec, decide_eq_true_eq]

theorem callSequence_eq_map (validateEmail : JSString → Bool) (calls : List FormData) :
    ∀ leftover : List String,
      callSequence validateEmail leftover calls
        = calls.map (validateRegistrationForm validateEmail) := by
  induction calls with
  | nil => intro leftover; rfl
  | cons formData rest ih =>
    intro leftover
    simp only [callSequence, List.map_cons, callValidate_eq, ih]

/-! ## Claims about totality, determinism and the indicator -/

/-- C11: both functions are total. The scorer returns a score for every
string, the empty string included; the validator returns a list of messages
without raising for every registration input, whatever strings the required
fields hold and whether or not `service_type` and `hourly_rate` are there, for
either role; absent optional fields count as not provided (a technician gets
the two technician messages, another role nothing). -/
theorem both_functions_total (numberToString : JSNumber → JSString)
    (validateEmail : JSValue → Bool) (p : JSString) (formData : FormData) :
    calculatePasswordStrengthUntyped numberToString (JSValue.string p)
        = Except.ok (calculatePasswordStrength p)
      ∧ calculatePasswordStrengthUntyped numberToString (JSValue.string []) = Except.ok 0
      ∧ validateRegistrationFormUntyped validateEmail formData.toUntyped
          = Except.ok
              (validateRegistrationForm (fun e => validateEmail (JSValue.string e)) formData)
      ∧ validateRegistrationForm (fun e => validateEmail (JSValue.string e))
            { formData with service_type := JSValue.undefined, hourly_rate := JSValue.undefined }
          = validateRegistrationForm (fun e => validateEmail (JSValue.string e))
              { formData with role := js "other" }
            ++ (if formData.role = js "technician" then [msgServiceType, msgHourlyRate]
                else []) := by
  refine ⟨calculatePasswordStrengthUntyped_string numberToString p, ?_,
    validateRegistrationFormUntyped_typed validateEmail formData, ?_⟩
  · rw [calculatePasswordStrengthUntyped_string]
    rfl
  · have hother : js "other" ≠ js "technician" := by decide
    have hu : toBoolean JSValue.undefined = false := rfl
    rw [validateRegistrationForm_eq_append, validateRegistrationForm_eq_append]
    by_cases h5 : formData.role = js "technician"
    · simp only [h5, hother, hu, if_true, if_false, true_or, List.append_nil]
      rfl
    · simp only [h5, hother, if_false, List.append_nil]

/-- C12: the score of the empty string is 0, the score of `aaaaaaaa` is 2 and
the score of `Aa1!aaaaaaaa`, which satisfies all six predicates, is 5. -/
theorem calculatePasswordStrength_examples :
    calculatePasswordStrength (js "") = 0
      ∧ calculatePasswordStrength (js "aaaaaaaa") = 2
      ∧ calculatePasswordStrength (js "Aa1!aaaaaaaa") = 5
      ∧ satisfiedCount (js "aaaaaaaa") = 2
      ∧ satisfiedCount (js "Aa1!aaaaaaaa") = 6 := by
  refine ⟨?_, ?_, ?_, ?_, ?_⟩ <;> decide

/-- C13: the validator is deterministic and keeps no state between calls. In
any sequence of calls, whatever array the first one starts from, each call
returns the validator's result for its own input; so two calls with the same
input return the same list, after any earlier calls. -/
theorem validateRegistrationForm_no_hidden_state (validateEmail : JSString → Bool)
    (leftover : List String) (earlier : List FormData) (formData : FormData) :
    callSequence validateEmail leftover (earlier ++ [formData, formData])
        = earlier.map (validateRegistrationForm validateEmail)
          ++ [validateRegistrationForm validateEmail formData,
              validateRegistrationForm validateEmail formData]
      ∧ callValidate validateEmail leftover formData
          = validateRegistrationForm validateEmail formData := by
  refine ⟨?_, callValidate_eq validateEmail leftover formData⟩
  rw [callSequence_eq_map]
  simp

/-- C14: the score is 0 if and only if the string is empty; every character
is a lowercase ASCII letter, an uppercase ASCII letter, an ASCII digit or in the
class `[^A-Za-z0-9]`, so a non-empty password scores at least 1. -/
theorem calculatePasswordStrength_eq_zero_iff (p : JSString) :
    (calculatePasswordStrength p = 0 ↔ p = [])
      ∧ (∀ u : CodeUnit, reLower.matches u = true ∨ reUpper.matches u = true
          ∨ reDigit.matches u = true ∨ reSpecial.matches u = true) := by
  constructor
  · constructor
    · intro h0
      cases p with
      | nil => rfl
      | cons u t =>
        exfalso
        rw [calculatePasswordStrength_eq_spec_points] at h0
        have hl := point_le_one ((u :: t).any isAsciiLower)
        rcases matches_some_class u with h | h | h | h
        · have : point ((u :: t).any isAsciiLower) = 1 := by simp [point, h]
          omega
        · have : point ((u :: t).any isAsciiUpper) = 1 := by simp [point, h]
          omega
        · have : point ((u :: t).any isAsciiDigit) = 1 := by simp [point, h]
          omega
        · have : point ((u :: t).any isSpecial) = 1 := by simp [point, h]
          omega
    · intro h
      subst h
      rfl
  · intro u
    have hl : reLower.matches u = isAsciiLower u := by
      simp [CharClass.matches, reLower, isAsciiLower]
    have hu : reUpper.matches u = isAsciiUpper u := by
      simp [CharClass.matches, reUpper, isAsciiUpper]
    have hd : reDigit.matches u = isAsciiDigit u := by
      simp [CharClass.matches, reDigit, isAsciiDigit]
    have hs : reSpecial.matches u = isSpecial u := by
      have := reSpecial_test [u]
      simpa [CharClass.test] using this
    rw [hl, hu, hd, hs]
    exact matches_some_class u

/-- C15: a string shorter than 8 scores at most 4; hence when the password of
an input scores 5, the result of the validator does not contain "Password must
be at least 8 characters". -/
theorem top_score_implies_length_rule (validateEmail : JSString → Bool) (p : JSString)
    (formData : FormData) :
    (p.length < 8 → calculatePasswordStrength p ≤ 4)
      ∧ (calculatePasswordStrength formData.password = 5
          → msgPassword ∉ validateRegistrationForm validateEmail formData) := by
  have short : ∀ q : JSString, q.length < 8 → calculatePasswordStrength q ≤ 4 := by
    intro q hq
    rw [calculatePasswordStrength_eq_spec_points]
    have h8 : point (decide (q.length ≥ 8)) = 0 := by
      simp only [point, ge_iff_le, decide_eq_true_eq]
      rw [if_neg (by omega)]
    have h12 : point (decide (q.length ≥ 12)) = 0 := by
      simp only [point, ge_iff_le, decide_eq_true_eq]
      rw [if_neg (by omega)]
    have a := point_le_one (q.any isAsciiLower)
    have b := point_le_one (q.any isAsciiUpper)
    have c := point_le_one (q.any isAsciiDigit)
    have d := point_le_one (q.any isSpecial)
    omega
  refine ⟨short p, ?_⟩
  intro h5 hmem
  rw [mem_validateRegistrationForm] at hmem
  simp [msgUsername, msgEmail, msgPassword, msgMismatch, msgServiceType, msgHourlyRate] at hmem
  have := short formData.password hmem
  omega

/-- C15, witness: `Aa1!` is shorter than 8 and scores 4; the password
`Aa1!aaaaaaaa` scores 5 and the length message is not produced. -/
theorem top_score_implies_length_rule_witness :
    calculatePasswordStrength (js "Aa1!") ≤ 4
      ∧ msgPassword ∉ validateRegistrationForm validateEmailModel strongPasswordForm :=
  ⟨(top_score_implies_length_rule validateEmailModel (js "Aa1!") strongPasswordForm).1
      (by decide),
   (top_score_implies_length_rule validateEmailModel (js "Aa1!") strongPasswordForm).2
      (by decide)⟩

/-- C16: below the cap a newly satisfied predicate strictly raises the score:
when the score of `p` is under 5 and `p ++ s` satisfies one of the six
predicates that `p` does not, the score of `p ++ s` is greater; so a newly
satisfied predicate leaves the score unchanged only at score 5. -/
theorem new_predicate_raises_score (p s : JSString)
    (hcap : calculatePasswordStrength p < 5)
    (hnew : ∃ pred ∈ strengthPredicates, pred (p ++ s) = true ∧ pred p = false) :
    calculatePasswordStrength p < calculatePasswordStrength (p ++ s) := by
  rw [calculatePasswordStrength_eq_spec_points] at hcap ⊢
  rw [calculatePasswordStrength_eq_spec_points (p ++ s)]
  have m1 := point_length_append 8 p s
  have m2 := point_length_append 12 p s
  have m3 := point_any_append isAsciiLower p s
  have m4 := point_any_append isAsciiUpper p s
  have m5 := point_any_append isAsciiDigit p s
  have m6 := point_any_append isSpecial p s
  obtain ⟨pred, hmem, hT, hF⟩ := hnew
  simp only [strengthPredicates, List.mem_cons, List.mem_singleton, List.not_mem_nil,
    or_false] at hmem
  rcases hmem with rfl | rfl | rfl | rfl | rfl | rfl <;> beta_reduce at hT hF
  · have e0 : point (decide (p.length ≥ 8)) = 0 := by rw [hF]; rfl
    have e1 : point (decide ((p ++ s).length ≥ 8)) = 1 := by rw [hT]; rfl
    omega
  · have e0 : point (decide (p.length ≥ 12)) = 0 := by rw [hF]; rfl
    have e1 : point (decide ((p ++ s).length ≥ 12)) = 1 := by rw [hT]; rfl
    omega
  · have e0 : point (p.any isAsciiLower) = 0 := by rw [hF]; rfl
    have e1 : point ((p ++ s).any isAsciiLower) = 1 := by rw [hT]; rfl
    omega
  · have e0 : point (p.any isAsciiUpper) = 0 := by rw [hF]; rfl
    have e1 : point ((p ++ s).any isAsciiUpper) = 1 := by rw [hT]; rfl
    omega
  · have e0 : point (p.any isAsciiDigit) = 0 := by rw [hF]; rfl
    have e1 : point ((p ++ s).any isAsciiDigit) = 1 := by rw [hT]; rfl
    omega
  · have e0 : point (p.any isSpecial) = 0 := by rw [hF]; rfl
    have e1 : point ((p ++ s).any isSpecial) = 1 := by rw [hT]; rfl
    omega

/-- C16, witness: appending `A` to `a` adds the uppercase predicate and raises
the score from 1 to 2. -/
theorem new_predicate_raises_score_witness :
    calculatePasswordStrength (js "a") < calculatePasswordStrength (js "a" ++ js "A") :=
  new_predicate_raises_score (js "a") (js "A") (by decide)
    ⟨fun q => q.any isAsciiUpper, by simp [strengthPredicates], by decide, by decide⟩

/-- C17: the lookup of the indicator is in bounds for every score the scorer
produces: for every string `p` the score is a valid index of the 6-element
array `colors`, so `colors[strength]` is one of its strings and never
`undefined`, and the width `strength * 20` is between 0 and 100 percent. -/
theorem indicator_lookup_in_bounds (p : JSString) (style : IndicatorStyle) :
    colors.length = 6
      ∧ calculatePasswordStrength p < colors.length
      ∧ (∃ c ∈ colors, arrayGet colors (calculatePasswordStrength p) = JSValue.string c)
      ∧ arrayGet colors (calculatePasswordStrength p) ≠ JSValue.undefined
      ∧ 0 ≤ calculatePasswordStrength p * 20
      ∧ calculatePasswordStrength p * 20 ≤ 100
      ∧ onPasswordInput (some style) p
          = some { background := arrayGet colors (calculatePasswordStrength p),
                   width := calculatePasswordStrength p * 20 } := by
  have hb : calculatePasswordStrength p ≤ 5 := by
    rw [calculatePasswordStrength_eq_points]
    exact Nat.min_le_right _ _
  have hlen : colors.length = 6 := rfl
  have hget : ∃ c ∈ colors, arrayGet colors (calculatePasswordStrength p) = JSValue.string c := by
    generalize calculatePasswordStrength p = n at hb
    interval_cases n <;> simp [colors, arrayGet]
  refine ⟨hlen, by omega, hget, ?_, Nat.zero_le _, by omega, rfl⟩
  obtain ⟨c, _, hc⟩ := hget
  rw [hc]
  exact fun h => JSValue.noConfusion h

end Auth
